import Mathlib

/-!
Shallow embedding of the scheme-to-wasm front end (src/src/common.rs,
src/src/parser.rs) and proofs about its specification.

Conventions:
* Rust `u64` type-variable ids are embedded as `Nat` (the source performs no
  arithmetic on ids: only equality tests, decimal formatting and decimal
  parsing, which agree with `Nat` on all values below 2^64, and ids in the
  Rust program are always below 2^64).
* `im_rc::Vector<T>` is embedded as `List T`, with index 0 the front of the
  vector (`push_front` is list cons).
* Rust `Result<T, E>` is embedded as `Except E T`, `Option<&T>` as `Option T`.
-/

/-- The type representation, from src/src/common.rs lines 18-29
(`pub enum Type`).  Named `Ty` because `Type` is reserved in Lean;
the `Exists` variant is named `exist` because `Exists` is the Lean
existential quantifier. -/
inductive Ty where
  | int : Ty
  | bool : Ty
  | str : Ty
  | list : Ty → Ty
  | func : List Ty → Ty → Ty
  | tuple : List Ty → Ty
  | exist : Nat → Ty → Ty
  | typeVar : Nat → Ty
  | unknown : Ty

mutual

/-- Structural equality of types: the embedding of the `PartialEq`
implementation derived on `Type` (src/src/common.rs line 18,
`#[derive(Clone, Debug, PartialEq)]`).  Two values of different variants are
unequal; two values of the same variant are equal iff their arguments are
componentwise equal. -/
def Ty.beq : Ty → Ty → Bool
  | .int, .int => true
  | .bool, .bool => true
  | .str, .str => true
  | .list t, .list u => Ty.beq t u
  | .func ins1 r1, .func ins2 r2 => Ty.beqList ins1 ins2 && Ty.beq r1 r2
  | .tuple ts1, .tuple ts2 => Ty.beqList ts1 ts2
  | .exist a t, .exist b u => a == b && Ty.beq t u
  | .typeVar a, .typeVar b => a == b
  | .unknown, .unknown => true
  | _, _ => false

/-- Componentwise equality of type sequences (the derived `PartialEq` of
`Vector<Type>`): equal lengths and pairwise equal elements. -/
def Ty.beqList : List Ty → List Ty → Bool
  | [], [] => true
  | t :: ts, u :: us => Ty.beq t u && Ty.beqList ts us
  | _, _ => false

end

theorem Ty.beq_iff (t u : Ty) : Ty.beq t u = true ↔ t = u := by
  induction t, u using Ty.beq.induct
  case motive_2 ts us => exact Ty.beqList ts us = true ↔ ts = us
  case case10 t u h1 h2 h3 h4 h5 h6 h7 h8 h9 =>
    simp only [Ty.beq.eq_def]
    constructor
    · intro h
      exfalso
      cases t <;> cases u <;> simp_all
    · intro h
      subst h
      cases t
      all_goals solve
        | simp_all
        | exact (h5 _ _ _ _ rfl rfl).elim
        | exact (h7 _ _ _ _ rfl rfl).elim
  case case13 ts us h1 h2 =>
    simp only [Ty.beqList.eq_def]
    constructor
    · intro h
      exfalso
      cases ts <;> cases us <;> simp_all
    · intro h
      subst h
      cases ts with
      | nil => exact (h1 rfl rfl).elim
      | cons t ts => exact (h2 _ _ _ _ rfl rfl).elim
  all_goals simp_all [Ty.beq, Ty.beqList]

theorem Ty.beqList_iff (ts us : List Ty) : Ty.beqList ts us = true ↔ ts = us := by
  induction ts generalizing us <;> cases us <;>
    simp_all [Ty.beqList, Ty.beq_iff]

/-- Propositional equality of embedded types is decidable, by the structural
equality function.  (Rust's `==` on `Type` is the derived `PartialEq`,
i.e. `Ty.beq`, which `Ty.beq_iff` shows decides `=`.) -/
instance : DecidableEq Ty := fun t u => decidable_of_iff _ (Ty.beq_iff t u)

/-- Decimal digit characters of a natural number, most significant first:
the rendering produced by Rust's `{}` formatting of an unsigned integer
(used by `write!(f, "T{}", id)` in src/src/common.rs lines 42-43). -/
def decimalChars (n : Nat) : List Char :=
  if _h : n < 10 then [Nat.digitChar n]
  else decimalChars (n / 10) ++ [Nat.digitChar (n % 10)]
decreasing_by exact Nat.div_lt_self (by omega) (by omega)

/-- Decimal rendering of a natural number as a string. -/
def decimal (n : Nat) : String := String.mk (decimalChars n)

/-- Prints a vector as space separated values.
From src/src/common.rs lines 3-16 (`format_vector`); the elements arrive
already rendered to strings (the Rust function formats each element with
`format!("{}", ..)` before concatenating). -/
def format_vector (arr : List String) : String :=
  if arr.isEmpty then "" else
    ((arr.foldl (fun result typ => result ++ typ ++ " ") "").dropRight 1)

mutual

/-- The canonical textual rendering of a type: the embedding of
`impl std::fmt::Display for Type` (src/src/common.rs lines 31-56). -/
def Ty.fmt : Ty → String
  | .int => "int"
  | .bool => "bool"
  | .str => "string"
  | .list typ => "(list " ++ Ty.fmt typ ++ ")"
  | .func in_typs ret_typ =>
      "(-> " ++ format_vector (Ty.fmtList in_typs) ++ " " ++ Ty.fmt ret_typ ++ ")"
  | .tuple typs => "(tuple " ++ format_vector (Ty.fmtList typs) ++ ")"
  | .exist typ_var base => "(exists T" ++ decimal typ_var ++ " " ++ Ty.fmt base ++ ")"
  | .typeVar id => "T" ++ decimal id
  | .unknown => "unknown"

/-- Renders each element of a type sequence (the per-element `format!` calls
inside `format_vector`). -/
def Ty.fmtList : List Ty → List String
  | [] => []
  | t :: ts => Ty.fmt t :: Ty.fmtList ts

end

/-- The persistent typing environment, from src/src/common.rs lines 191-194
(`pub struct TypeEnv<T: Clone>`).  New values are appended to the front of
the binding list. -/
structure TypeEnv (T : Type) where
  bindings : List (String × T)

namespace TypeEnv

/-- `TypeEnv::new` (src/src/common.rs lines 198-202). -/
def new {T : Type} : TypeEnv T := { bindings := [] }

/-- Returns a new environment extended with the provided binding
(`TypeEnv::add_binding`, src/src/common.rs lines 204-209: clones the binding
list and pushes the new binding to the front). -/
def add_binding {T : Type} (env : TypeEnv T) (new_binding : String × T) :
    TypeEnv T :=
  { bindings := new_binding :: env.bindings }

/-- Returns a new environment extended with the provided bindings
(`TypeEnv::add_bindings`, src/src/common.rs lines 211-218: pushes each
binding of the batch to the front, in batch order). -/
def add_bindings {T : Type} (env : TypeEnv T) (new_bindings : List (String × T)) :
    TypeEnv T :=
  { bindings := new_bindings.foldl (fun bindings binding => binding :: bindings)
      env.bindings }

/-- The scanning loop of `TypeEnv::find` (src/src/common.rs lines 221-225):
walks the binding list front to back and returns the first value whose name
equals the key. -/
def findInList {T : Type} : List (String × T) → String → Option T
  | [], _ => none
  | pair :: rest, key => if pair.1 = key then some pair.2 else findInList rest key

/-- Scans the binding list front to back for the first binding whose name
equals the key (`TypeEnv::find`, src/src/common.rs lines 220-227). -/
def find {T : Type} (env : TypeEnv T) (key : String) : Option T :=
  findInList env.bindings key

end TypeEnv

/-- The numeric value of a decimal digit character, `none` for any other
character: Rust's `char::to_digit(10)` as used by `u64::from_str`. -/
def digitVal (c : Char) : Option Nat :=
  if '0' ≤ c ∧ c ≤ '9' then some (c.toNat - 48) else none

/-- Accumulating decimal parse loop of `u64::from_str`: consume digit
characters left to right, multiplying the accumulator by ten. -/
def parseDigits (acc : Nat) : List Char → Option Nat
  | [] => some acc
  | c :: cs =>
      match digitVal c with
      | some d => parseDigits (acc * 10 + d) cs
      | none => none

/-- The embedding of `str::parse::<u64>()` as used on type-variable ids
(src/src/parser.rs lines 44 and 140): fails on the empty string, otherwise
parses decimal digits.  (Rust's `from_str` also tolerates a leading `+` and
rejects values of 2^64 or above; no claim depends on either, and ids are
embedded as `Nat`.) -/
def parseU64 (s : String) : Option Nat :=
  match s.data with
  | [] => none
  | cs => parseDigits 0 cs

theorem parseDigits_append (acc : Nat) (l1 l2 : List Char) :
    parseDigits acc (l1 ++ l2) =
      match parseDigits acc l1 with
      | some a => parseDigits a l2
      | none => none := by
  induction l1 generalizing acc with
  | nil => simp [parseDigits]
  | cons c cs ih =>
      simp only [List.cons_append, parseDigits]
      cases digitVal c <;> simp [ih]

theorem digitVal_digitChar (d : Nat) (h : d < 10) :
    digitVal (Nat.digitChar d) = some d := by
  interval_cases d <;> rfl

theorem parseDigits_decimalChars (n : Nat) : ∀ acc : Nat,
    parseDigits acc (decimalChars n) =
      some (acc * 10 ^ (decimalChars n).length + n) := by
  induction n using Nat.strong_induction_on with
  | _ n ih =>
    intro acc
    rw [decimalChars]
    by_cases h : n < 10
    · simp [h, parseDigits, digitVal_digitChar n h]
    · have hdiv : n / 10 < n := Nat.div_lt_self (by omega) (by omega)
      simp only [h, dite_false, parseDigits_append, ih (n / 10) hdiv acc,
        parseDigits, digitVal_digitChar (n % 10) (Nat.mod_lt n (by omega)),
        List.length_append, List.length_singleton]
      congr 1
      calc (acc * 10 ^ (decimalChars (n / 10)).length + n / 10) * 10 + n % 10
          = acc * (10 ^ (decimalChars (n / 10)).length * 10) +
              (10 * (n / 10) + n % 10) := by ring
        _ = acc * 10 ^ ((decimalChars (n / 10)).length + 1) + n := by
              rw [Nat.div_add_mod, pow_succ]

theorem decimalChars_ne_nil (n : Nat) : decimalChars n ≠ [] := by
  rw [decimalChars]
  split <;> simp

/-- Decimal round trip: parsing the decimal rendering of `n` gives back `n`
(the composition of `u64::from_str` with `{}` formatting is the identity). -/
theorem parseU64_decimal (n : Nat) : parseU64 (decimal n) = some n := by
  have hval := parseDigits_decimalChars n 0
  cases hc : decimalChars n with
  | nil => exact absurd hc (decimalChars_ne_nil n)
  | cons c cs =>
      rw [hc] at hval
      simp [parseU64, decimal, hc, hval]

/-- Parse errors, from src/src/parser.rs lines 4-5
(`pub struct ParseError(String)`). -/
structure ParseError where
  msg : String
  deriving DecidableEq

/-- The S-expression values fed to the parser: an embedding of
`lexpr::Value` (external `lexpr` crate), restricted to the forms
src/src/parser.rs distinguishes.  `list` is a `Cons` chain that forms a
proper list (`to_vec()` succeeds and yields the elements); `dotted` is a
`Cons` chain ending in a non-nil value (`to_vec()` fails); `nil` stands for
the remaining lexpr forms (`Nil`, `Null`, keywords, characters, byte
vectors), which the parser sends to its catch-all error branches.
`number` carries a mathematical integer; values outside the `i64` range
model lexpr numbers on which `as_i64()` fails (floating-point numbers, also
rejected, are not modelled). -/
inductive Sexp where
  | number : Int → Sexp
  | bool : Bool → Sexp
  | str : String → Sexp
  | symbol : String → Sexp
  | list : List Sexp → Sexp
  | dotted : List Sexp → Sexp → Sexp
  | nil : Sexp

/-- `lexpr::Value::as_symbol`: the name of a symbol, `none` otherwise. -/
def Sexp.as_symbol : Sexp → Option String
  | .symbol s => some s
  | _ => none

/-- `lexpr::Value::as_name`: the name of a symbol (or keyword; keywords are
not modelled), `none` otherwise. -/
def Sexp.as_name : Sexp → Option String
  | .symbol s => some s
  | _ => none

/-- `lexpr::Number::as_i64`: the value of a number if it is representable
as a 64-bit signed integer. -/
def Sexp.as_i64 (n : Int) : Option Int :=
  if -(2 ^ 63) ≤ n ∧ n < 2 ^ 63 then some n else none

mutual

/-- Resolves a type annotation into the `Type` representation: the embedding
of `parse_type` (src/src/parser.rs lines 32-78).  The `Cons` branch is split
over the `list`/`dotted` constructors (`to_vec()` succeeding or failing);
the helper functions receive the whole element vector, as in the source. -/
def parse_type : Sexp → Except ParseError Ty
  | .symbol val =>
      if val = "int" then .ok .int
      else if val = "bool" then .ok .bool
      else if val = "string" then .ok .str
      else if val = "unknown" then .ok .unknown
      else
        match val.data with
        | 'T' :: rest =>
            match parseU64 (String.mk rest) with
            | some num => .ok (.typeVar num)
            | none =>
                .error ⟨"ParseError: invalid digit found in string"⟩
        | _ => .error ⟨"Type annotation not recognized as a valid type."⟩
  | .list [] => .error ⟨"Type annotation is missing values."⟩
  | .list (first :: rest) =>
      match Sexp.as_symbol first with
      | some "->" => parse_func_annotation (first :: rest)
      | some "list" => parse_list_annotation (first :: rest)
      | some "tuple" => parse_tuple_annotation (first :: rest)
      | some "exists" => parse_exists_annotation (first :: rest)
      | _ =>
          .error
            ⟨"Type annotation does not have \"->\", \"tuple\", or \"list\" as first symbol."⟩
  | .dotted _ _ => .error ⟨"Type annotation is not a valid list."⟩
  | _ => .error ⟨"Type annotation is invalid or is missing."⟩

/-- `parse_func_annotation` (src/src/parser.rs lines 80-102): requires the
arrow symbol plus at least a return type; the elements between them are the
parameter types (`lst_vec[1..len-1]`), the final element the return type. -/
def parse_func_annotation : List Sexp → Except ParseError Ty
  | [] => .error ⟨"Type annotation for function is missing values."⟩
  | [_] => .error ⟨"Type annotation for function is missing values."⟩
  | _ :: rest => do
      let (input_types, return_type) ← parse_func_args rest
      .ok (.func input_types return_type)

/-- Splits the tail of a function annotation into the parameter types and
the final return type (the `lst_vec[1..len-1]` map plus the
`lst_vec[len-1]` parse in `parse_func_annotation`). -/
def parse_func_args : List Sexp → Except ParseError (List Ty × Ty)
  | [] => .error ⟨"Type annotation for function is missing values."⟩
  | [last] => do
      let return_type ← parse_type last
      .ok ([], return_type)
  | x :: xs => do
      let t ← parse_type x
      let (ts, return_type) ← parse_func_args xs
      .ok (t :: ts, return_type)

/-- `parse_list_annotation` (src/src/parser.rs lines 104-115): exactly two
elements, the second the element type. -/
def parse_list_annotation : List Sexp → Except ParseError Ty
  | [_, snd] => do
      let lst_type ← parse_type snd
      .ok (.list lst_type)
  | _ => .error ⟨"Type annotation for list has incorrect number of values."⟩

/-- `parse_tuple_annotation` (src/src/parser.rs lines 117-127): every
element after the head symbol is a component type.  (An empty vector cannot
reach this function from `parse_type`; the Rust slice `lst_vec[1..]` would
panic there, embedded as an error.) -/
def parse_tuple_annotation : List Sexp → Except ParseError Ty
  | [] => .error ⟨"Type annotation for tuple is empty."⟩
  | _ :: rest => do
      let tuple_types ← parse_type_list rest
      .ok (.tuple tuple_types)

/-- The element-wise `map(parse_type).collect::<Result<_, _>>()` used by the
function and tuple annotation parsers: parses each element in order,
propagating the first error. -/
def parse_type_list : List Sexp → Except ParseError (List Ty)
  | [] => .ok []
  | x :: xs => do
      let t ← parse_type x
      let ts ← parse_type_list xs
      .ok (t :: ts)

/-- `parse_exists_annotation` (src/src/parser.rs lines 129-153): exactly
three elements; the second a name of the form `T<digits>` giving the bound
variable id, the third the base type. -/
def parse_exists_annotation : List Sexp → Except ParseError Ty
  | [_, var_sexp, body] =>
      match Sexp.as_name var_sexp with
      | some val =>
          match val.data with
          | 'T' :: rest =>
              match parseU64 (String.mk rest) with
              | some num => do
                  let lst_type ← parse_type body
                  .ok (.exist num lst_type)
              | none =>
                  .error ⟨"ParseError: invalid digit found in string"⟩
          | _ =>
              .error
                ⟨"Type variable for existential type is not of the form T0, T1, etc."⟩
      | none =>
          .error
            ⟨"Type annotation for existential type does not have a valid type variable in its first argument."⟩
  | _ =>
      .error ⟨"Type annotation for existential type has incorrect number of values."⟩

end

mutual

/-- Modelled from the spec: §6 makes the surface-syntax reader (the external
`lexpr` crate, absent from src/) responsible for turning text into
S-expression values before the parser resolves them.  `sexpOfTy T` is the
S-expression value obtained by reading back the Display rendering
`Ty.fmt T` (§4.1): each parenthesised form reads as a proper list, each
bare word as a symbol; whitespace between tokens (including the double
space printed by a `Func` with no parameters and the trailing space of an
empty `Tuple`) is insignificant to the reader. -/
def sexpOfTy : Ty → Sexp
  | .int => .symbol "int"
  | .bool => .symbol "bool"
  | .str => .symbol "string"
  | .list t => .list [.symbol "list", sexpOfTy t]
  | .func in_typs ret_typ =>
      .list (.symbol "->" :: (sexpOfTyList in_typs ++ [sexpOfTy ret_typ]))
  | .tuple typs => .list (.symbol "tuple" :: sexpOfTyList typs)
  | .exist typ_var base =>
      .list [.symbol "exists", .symbol ("T" ++ decimal typ_var), sexpOfTy base]
  | .typeVar id => .symbol ("T" ++ decimal id)
  | .unknown => .symbol "unknown"

/-- Reads back each element of a rendered type sequence. -/
def sexpOfTyList : List Ty → List Sexp
  | [] => []
  | t :: ts => sexpOfTy t :: sexpOfTyList ts

end

theorem data_T_decimal (n : Nat) :
    ("T" ++ decimal n).data = 'T' :: decimalChars n := by
  simp [decimal, String.data_append]

theorem T_decimal_ne (n : Nat) (s : String) (hs : s.data.head? ≠ some 'T') :
    ("T" ++ decimal n) ≠ s := by
  intro h
  apply hs
  rw [← h, data_T_decimal]
  rfl

theorem parse_type_T_decimal (n : Nat) :
    parse_type (.symbol ("T" ++ decimal n)) = .ok (.typeVar n) := by
  have hp : parseU64 (String.mk (decimalChars n)) = some n := parseU64_decimal n
  rw [parse_type]
  rw [if_neg (T_decimal_ne n "int" (by decide)),
    if_neg (T_decimal_ne n "bool" (by decide)),
    if_neg (T_decimal_ne n "string" (by decide)),
    if_neg (T_decimal_ne n "unknown" (by decide)),
    data_T_decimal]
  simp [hp]

theorem parse_func_args_append (sl : List Sexp) (ts : List Ty) (s : Sexp)
    (r : Ty) (hts : parse_type_list sl = .ok ts) (hr : parse_type s = .ok r) :
    parse_func_args (sl ++ [s]) = .ok (ts, r) := by
  induction sl generalizing ts with
  | nil =>
      simp only [parse_type_list] at hts
      cases hts
      simp [parse_func_args, hr, Bind.bind, Except.bind]
  | cons x xs ih =>
      rw [parse_type_list] at hts
      cases hx : parse_type x with
      | error e => rw [hx] at hts; simp [Bind.bind, Except.bind] at hts
      | ok t =>
          rw [hx] at hts
          cases hxs : parse_type_list xs with
          | error e =>
              rw [hxs] at hts; simp [Bind.bind, Except.bind] at hts
          | ok ts' =>
              rw [hxs] at hts
              simp [Bind.bind, Except.bind, pure, Except.pure] at hts
              subst hts
              cases happ : xs ++ [s] with
              | nil => simp at happ
              | cons y ys =>
                  rw [List.cons_append, happ, parse_func_args]
                  rw [← happ, ih ts' hxs]
                  simp [Bind.bind, Except.bind, hx, pure, Except.pure]
                  simp

/-- Display/parse round trip, general form: resolving the read-back
rendering of any type yields that type again. -/
theorem parse_type_sexpOfTy (T : Ty) : parse_type (sexpOfTy T) = .ok T := by
  induction T using sexpOfTy.induct
  case motive_2 ts => exact parse_type_list (sexpOfTyList ts) = .ok ts
  case case1 => simp [sexpOfTy, parse_type]
  case case2 => simp [sexpOfTy, parse_type]
  case case3 => simp [sexpOfTy, parse_type]
  case case4 t ih =>
    simp [sexpOfTy, parse_type, Sexp.as_symbol, parse_list_annotation, ih,
      Bind.bind, Except.bind]
  case case5 ins ret ih_ins ih_ret =>
    simp only [sexpOfTy, parse_type, Sexp.as_symbol]
    cases h : sexpOfTyList ins ++ [sexpOfTy ret] with
    | nil => simp at h
    | cons y ys =>
        rw [ parse_func_annotation.eq_def]
        simp only []
        rw [← h,
          parse_func_args_append (sexpOfTyList ins) ins (sexpOfTy ret) ret
            ih_ins ih_ret]
        simp [Bind.bind, Except.bind, pure, Except.pure]
  case case6 ts ih_ts =>
    simp [sexpOfTy, parse_type, Sexp.as_symbol, parse_tuple_annotation, ih_ts,
      Bind.bind, Except.bind, pure, Except.pure]
  case case7 v b ih_b =>
    simp only [sexpOfTy, parse_type, Sexp.as_symbol]
    rw [ parse_exists_annotation]
    simp only [Sexp.as_name, data_T_decimal]
    have hp : parseU64 (String.mk (decimalChars v)) = some v := parseU64_decimal v
    simp [hp, ih_b, Bind.bind, Except.bind, pure, Except.pure]
  case case8 n => exact parse_type_T_decimal n
  case case9 => simp [sexpOfTy, parse_type]
  case case10 => simp [sexpOfTyList, parse_type_list]
  case case11 t ts ih_t ih_ts =>
    simp [sexpOfTyList, parse_type_list, ih_t, ih_ts, Bind.bind, Except.bind,
      pure, Except.pure]

namespace TypeEnv

theorem find_add_binding {T : Type} (env : TypeEnv T) (x k : String) (t : T) :
    find (add_binding env (x, t)) k = if k = x then some t else find env k := by
  by_cases h : x = k
  · simp [find, add_binding, findInList, h]
  · simp [find, add_binding, findInList, h, Ne.symm h]

theorem find_new {T : Type} (k : String) : find (new (T := T)) k = none := rfl

theorem findInList_append {T : Type} (l1 l2 : List (String × T)) (k : String) :
    findInList (l1 ++ l2) k =
      match findInList l1 k with
      | some v => some v
      | none => findInList l2 k := by
  induction l1 with
  | nil => simp [findInList]
  | cons p rest ih =>
      by_cases h : p.1 = k <;> simp [findInList, h, ih]

theorem findInList_eq_none_iff {T : Type} (l : List (String × T)) (k : String) :
    findInList l k = none ↔ ∀ p ∈ l, p.1 ≠ k := by
  induction l with
  | nil => simp [findInList]
  | cons p rest ih =>
      by_cases h : p.1 = k <;> simp [findInList, h, ih]

theorem findInList_eq_find? {T : Type} (l : List (String × T)) (k : String) :
    findInList l k = (l.find? fun p => p.1 == k).map (fun p => p.2) := by
  induction l with
  | nil => simp [findInList]
  | cons p rest ih =>
      by_cases h : p.1 = k
      · simp [findInList, List.find?, h, ih]
      · have hb : (p.1 == k) = false := by simp [h]
        simp [findInList, List.find?, h, hb, ih]

theorem add_bindings_eq_foldl {T : Type} (env : TypeEnv T)
    (bs : List (String × T)) : add_bindings env bs = bs.foldl add_binding env := by
  induction bs generalizing env with
  | nil => rfl
  | cons b bs ih =>
      show add_bindings env (b :: bs) = bs.foldl add_binding (add_binding env b)
      rw [← ih]
      rfl

theorem foldl_push_front {T : Type} (bs : List (String × T))
    (init : List (String × T)) :
    bs.foldl (fun bindings binding => binding :: bindings) init =
      bs.reverse ++ init := by
  induction bs generalizing init with
  | nil => simp
  | cons b bs ih => simp [ih]

theorem add_bindings_bindings {T : Type} (env : TypeEnv T)
    (bs : List (String × T)) :
    (add_bindings env bs).bindings = bs.reverse ++ env.bindings := by
  simp [add_bindings, foldl_push_front]

theorem find_add_bindings {T : Type} (env : TypeEnv T)
    (bs : List (String × T)) (k : String) :
    find (add_bindings env bs) k =
      match (bs.reverse.find? fun p => p.1 == k) with
      | some p => some p.2
      | none => find env k := by
  rw [find, add_bindings_bindings, findInList_append, findInList_eq_find?]
  cases bs.reverse.find? fun p => p.1 == k <;> simp [find]

end TypeEnv

mutual

/-- Modelled from the spec: §4.1's substitution `subst(T, var_id,
replacement)` — no substitution function exists under src/ (the checker
module `type_check` referenced by src/src/generate_code.rs line 2 is
absent).  Structural descent replacing every occurrence of
`TypeVar(var_id)` by `replacement`, descending into `List`, `Func` (both
parameter sequence and return), `Tuple` and the body of a nested `Exists`
— except that descent into a nested `Exists` binding the same id stops.
(§4.1 also names a `Record` variant, which src/src/common.rs's `Type` does
not have.) -/
def subst : Ty → Nat → Ty → Ty
  | .int, _, _ => .int
  | .bool, _, _ => .bool
  | .str, _, _ => .str
  | .list t, var_id, replacement => .list (subst t var_id replacement)
  | .func in_typs ret_typ, var_id, replacement =>
      .func (substList in_typs var_id replacement) (subst ret_typ var_id replacement)
  | .tuple typs, var_id, replacement => .tuple (substList typs var_id replacement)
  | .exist v body, var_id, replacement =>
      if v = var_id then .exist v body
      else .exist v (subst body var_id replacement)
  | .typeVar v, var_id, replacement =>
      if v = var_id then replacement else .typeVar v
  | .unknown, _, _ => .unknown

/-- Substitution mapped over a type sequence (`Func` parameters, `Tuple`
components). -/
def substList : List Ty → Nat → Ty → List Ty
  | [], _, _ => []
  | t :: ts, var_id, replacement =>
      subst t var_id replacement :: substList ts var_id replacement

end

/-- The two §7 error cases reachable from the §4.3 `Pack` rule. -/
inductive TypeCheckError where
  | notAnExistential : TypeCheckError
  | existentialPackMismatch : TypeCheckError
  deriving DecidableEq

/-- Modelled from the spec: §4.3's checking rule for
`Pack(value_expr, substitution_type, existential_type)` — the checker
module is absent from src/.  The rule consumes the already-checked type of
`value_expr` (`value_type`): the annotation must be an existential
`Exists(var_id, base)` (`NotAnExistential`), the value's type must equal
`subst(base, var_id, substitution_type)` (`ExistentialPackMismatch`), and
the result is the existential type unchanged. -/
def checkPack (value_type : Ty) (substitution_type : Ty)
    (existential_type : Ty) : Except TypeCheckError Ty :=
  match existential_type with
  | .exist var_id base =>
      if value_type = subst base var_id substitution_type then
        .ok (.exist var_id base)
      else .error .existentialPackMismatch
  | _ => .error .notAnExistential

/-- Binary operators, from src/src/common.rs lines 156-170 (`pub enum
BinOp`). -/
inductive BinOp where
  | add | subtract | multiply | divide
  | lessThan | greaterThan | lessOrEqual | greaterOrEqual
  | equalTo | and | or | concat
  deriving DecidableEq

mutual

/-- Expression nodes, from src/src/common.rs lines 58-62 (`pub struct
Expr`): a checked-type slot paired with the node kind.  (A Lean `structure`
cannot be mutually recursive with an `inductive`, so the struct is a
one-constructor inductive with projections defined below.) -/
inductive Expr where
  | mk : Ty → ExprKind → Expr

/-- Expression forms, from src/src/common.rs lines 73-96 (`pub enum
ExprKind`).  `If`, `Let` and `Env` are renamed `if_`, `let_` and `envE`
(keyword / namespace clashes); everything else keeps its source name in
lower case. -/
inductive ExprKind where
  | binop : BinOp → Expr → Expr → ExprKind
  | if_ : Expr → Expr → Expr → ExprKind
  | let_ : List (String × Expr) → Expr → ExprKind
  | lambda : List (String × Ty) → Ty → Expr → ExprKind
  | begin : List Expr → ExprKind
  | set : String → Expr → ExprKind
  | cons : Expr → Expr → ExprKind
  | car : Expr → ExprKind
  | cdr : Expr → ExprKind
  | isNull : Expr → ExprKind
  | null : Ty → ExprKind
  | fnApp : Expr → List Expr → ExprKind
  | tuple : List Expr → List Ty → ExprKind
  | tupleGet : Expr → Expr → ExprKind
  | envE : List (String × Expr) → ExprKind
  | envGet : Expr → String → ExprKind
  | pack : Expr → Ty → Ty → ExprKind
  | id : String → ExprKind
  | num : Int → ExprKind
  | bool : Bool → ExprKind
  | str : String → ExprKind

end

/-- The `checked_type` field of an expression node. -/
def Expr.checked_type : Expr → Ty
  | .mk t _ => t

/-- The `kind` field of an expression node. -/
def Expr.kind : Expr → ExprKind
  | .mk _ k => k

/-- `Expr::new` (src/src/common.rs lines 64-71): wraps a kind with the
checked-type slot initialized to `Unknown`. -/
def Expr.new (kind : ExprKind) : Expr := .mk .unknown kind

/-- The per-argument loop of `unwrap_lambda_args` (src/src/parser.rs lines
164-207): each argument must be a three-element list `[name : type]` with a
`:` separator symbol, a symbol name, and a parseable type annotation. -/
def unwrap_lambda_args_list : List Sexp → Except ParseError (List (String × Ty))
  | [] => .ok []
  | arg :: args => do
      let parsed ←
        match arg with
        | .list arg_vec =>
            match arg_vec with
            | [name_sexp, sep_sexp, type_sexp] =>
                match Sexp.as_symbol sep_sexp with
                | some separator =>
                    if separator ≠ ":" then
                      .error
                        ⟨"Lambda argument does not contain the correct : separator."⟩
                    else
                      match Sexp.as_symbol name_sexp with
                      | some arg_name => do
                          let arg_type ← parse_type type_sexp
                          .ok (arg_name, arg_type)
                      | none =>
                          .error ⟨"Lambda argument does not have a valid name."⟩
                | none =>
                    .error
                      ⟨"Lambda argument does not contain the correct : separator."⟩
            | _ =>
                .error
                  ⟨"Lambda argument is missing values or contains extra values."⟩
        | _ => .error ⟨"Lambda argument is not a valid list."⟩
      let rest ← unwrap_lambda_args_list args
      .ok (parsed :: rest)

/-- `unwrap_lambda_args` (src/src/parser.rs lines 155-208): the arguments
themselves must form a proper list. -/
def unwrap_lambda_args : Sexp → Except ParseError (List (String × Ty))
  | .list arg_list => unwrap_lambda_args_list arg_list
  | _ => .error ⟨"Lambda arguments are not in a valid list."⟩

/-- `parse_null` (src/src/parser.rs lines 469-480): one argument, a type
annotation. -/
def parse_null : List Sexp → Except ParseError Expr
  | [rest0] =>
      match parse_type rest0 with
      | .ok typ => .ok (Expr.new (.null typ))
      | .error e => .error e
  | _ => .error ⟨"Null expression has incorrect number of arguments."⟩

mutual

/-- `parse` (src/src/parser.rs lines 574-628): the expression parser.
Numbers, booleans and strings are literals; a proper list dispatches on its
head symbol; a bare symbol is `true`/`false` or an identifier; every other
value form is rejected. -/
def parse : Sexp → Except ParseError Expr
  | .number x =>
      match Sexp.as_i64 x with
      | some val => .ok (Expr.new (.num val))
      | none => .error ⟨"Invalid number found (must be a 64-bit integer)."⟩
  | .bool x => .ok (Expr.new (.bool x))
  | .str x => .ok (Expr.new (.str x))
  | .list [] => .error ⟨"Empty list found."⟩
  | .list (first :: rest) =>
      match Sexp.as_symbol first with
      | some val =>
          match val with
          | "and" | "or" | "+" | "*" | "-" | "/" | ">" | "<" | ">=" | "<="
          | "=" | "concat" => parse_binop val rest
          | "if" => parse_if rest
          | "let" => parse_let rest
          | "lambda" => parse_lambda rest
          | "make-env" => parse_make_env rest
          | "env-ref" => parse_get_env rest
          | "begin" => parse_begin rest
          | "set!" => parse_set_bang rest
          | "cons" => parse_cons rest
          | "car" => parse_car rest
          | "cdr" => parse_cdr rest
          | "null?" => parse_is_null rest
          | "null" => parse_null rest
          | "make-tuple" => parse_make_tuple rest
          | "get-nth" => parse_get_tuple rest
          | "pack" => parse_pack rest
          | _ => parse_func first rest
      | none => parse_func first rest
  | .dotted _ _ => .error ⟨"Cons expression is not a valid list."⟩
  | .symbol x =>
      if x = "true" then .ok (Expr.new (.bool true))
      else if x = "false" then .ok (Expr.new (.bool false))
      else .ok (Expr.new (.id x))
  | .nil => .error ⟨"Unrecognized form of expression found."⟩
termination_by s => sizeOf s

/-- `parse_array` (src/src/parser.rs lines 214-216): parses each element in
order, propagating the first error. -/
def parse_array : List Sexp → Except ParseError (List Expr)
  | [] => .ok []
  | exp :: exps => do
      let e ← parse exp
      let es ← parse_array exps
      .ok (e :: es)
termination_by l => sizeOf l


/-- `parse_binop` (src/src/parser.rs lines 218-248): exactly two
sub-expressions, then the operator symbol is resolved. -/
def parse_binop (op : String) : List Sexp → Except ParseError Expr
  | [rest0, rest1] => do
      let exp1 ← parse rest0
      let exp2 ← parse rest1
      let operator ←
        (match op with
          | "and" => .ok BinOp.and
          | "or" => .ok BinOp.or
          | "+" => .ok BinOp.add
          | "-" => .ok BinOp.subtract
          | "*" => .ok BinOp.multiply
          | "/" => .ok BinOp.divide
          | "<" => .ok BinOp.lessThan
          | ">" => .ok BinOp.greaterThan
          | "<=" => .ok BinOp.lessOrEqual
          | ">=" => .ok BinOp.greaterOrEqual
          | "=" => .ok BinOp.equalTo
          | "concat" => .ok BinOp.concat
          | _ => .error ⟨"Unrecognized binary operator."⟩ :
          Except ParseError BinOp)
      .ok (Expr.new (.binop operator exp1 exp2))
  | _ => .error ⟨"Binary operator has incorrect number of sub-expressions."⟩
termination_by l => sizeOf l

/-- `parse_if` (src/src/parser.rs lines 250-268): exactly three
sub-expressions. -/
def parse_if : List Sexp → Except ParseError Expr
  | [rest0, rest1, rest2] => do
      let predicate ← parse rest0
      let consequent ← parse rest1
      let alternate ← parse rest2
      .ok (Expr.new (.if_ predicate consequent alternate))
  | _ => .error ⟨"If expression has incorrect number of arguments."⟩
termination_by l => sizeOf l

/-- The per-binding loop of `parse_let` (src/src/parser.rs lines 286-307):
each binding is a two-element list of a symbol and an expression. -/
def parse_let_bindings : List Sexp → Except ParseError (List (String × Expr))
  | [] => .ok []
  | binding :: bindings => do
      let parsed ←
        match binding with
        | .list binding_vec =>
            match binding_vec with
            | [name_sexp, val_sexp] =>
                match Sexp.as_symbol name_sexp with
                | some binding_name => do
                    let binding_val ← parse val_sexp
                    .ok (binding_name, binding_val)
                | none => .error ⟨"Let binding does not have a valid name."⟩
            | _ =>
                .error ⟨"Let binding is missing values or contains extra values."⟩
        | _ => .error ⟨"Let binding is not a valid list."⟩
      let rest ← parse_let_bindings bindings
      .ok (parsed :: rest)
termination_by l => sizeOf l

/-- `parse_let` (src/src/parser.rs lines 270-312): exactly two arguments,
the first a proper list of bindings, the second the body. -/
def parse_let : List Sexp → Except ParseError Expr
  | [rest0, rest1] =>
      match rest0 with
      | .list bindings => do
          let bindings_vec ← parse_let_bindings bindings
          let body_expr ← parse rest1
          .ok (Expr.new (.let_ bindings_vec body_expr))
      | _ => .error ⟨"Let expression bindings are not in a proper list."⟩
  | _ => .error ⟨"Let expression has incorrect number of arguments."⟩
termination_by l => sizeOf l

/-- `parse_lambda` (src/src/parser.rs lines 314-345): exactly four
arguments — argument list, `:` separator, return type, body. -/
def parse_lambda : List Sexp → Except ParseError Expr
  | [rest0, rest1, rest2, rest3] => do
      let args ← unwrap_lambda_args rest0
      match Sexp.as_symbol rest1 with
      | some separator =>
          if separator ≠ ":" then
            .error
              ⟨"Lambda expression does not have the correct separator : between the arguments list and return type."⟩
          else do
            let ret_type ← parse_type rest2
            let body ← parse rest3
            .ok (Expr.new (.lambda args ret_type body))
      | none =>
          .error
            ⟨"Lambda expression does not have a separator between the arguments list and return type."⟩
  | _ =>
      .error
        ⟨"Lambda expression has incorrect number of arguments. Perhaps you are missing the return type?"⟩
termination_by l => sizeOf l

/-- The per-binding loop of `parse_make_env` (src/src/parser.rs lines
348-369): same shape as a `let` binding. -/
def parse_env_bindings : List Sexp → Except ParseError (List (String × Expr))
  | [] => .ok []
  | binding :: bindings => do
      let parsed ←
        match binding with
        | .list binding_vec =>
            match binding_vec with
            | [name_sexp, val_sexp] =>
                match Sexp.as_symbol name_sexp with
                | some binding_name => do
                    let binding_val ← parse val_sexp
                    .ok (binding_name, binding_val)
                | none => .error ⟨"Make-env binding does not have a valid name."⟩
            | _ =>
                .error
                  ⟨"Make-env binding is missing values or contains extra values."⟩
        | _ => .error ⟨"Make-env binding is not a valid list."⟩
      let rest ← parse_env_bindings bindings
      .ok (parsed :: rest)
termination_by l => sizeOf l

/-- `parse_make_env` (src/src/parser.rs lines 347-371): every argument is a
binding. -/
def parse_make_env (rest : List Sexp) : Except ParseError Expr := do
  let bindings_vec ← parse_env_bindings rest
  .ok (Expr.new (.envE bindings_vec))
termination_by sizeOf rest + 1

/-- `parse_get_env` (src/src/parser.rs lines 373-391): an environment
expression and a key symbol. -/
def parse_get_env : List Sexp → Except ParseError Expr
  | [rest0, rest1] => do
      let env ← parse rest0
      match Sexp.as_symbol rest1 with
      | some key => .ok (Expr.new (.envGet env key))
      | none => .error ⟨"Env-ref key is not a valid identifier."⟩
  | _ => .error ⟨"Env-ref expression has incorrect number of arguments."⟩
termination_by l => sizeOf l

/-- `parse_begin` (src/src/parser.rs lines 393-402): at least one
sub-expression, all parsed in order. -/
def parse_begin : List Sexp → Except ParseError Expr
  | [] => .error ⟨"Begin expression has no arguments."⟩
  | rest0 :: rest => do
      let exps ← parse_array (rest0 :: rest)
      .ok (Expr.new (.begin exps))
termination_by l => sizeOf l + 1

/-- `parse_set_bang` (src/src/parser.rs lines 404-421): a variable symbol
and one expression. -/
def parse_set_bang : List Sexp → Except ParseError Expr
  | [rest0, rest1] =>
      match Sexp.as_symbol rest0 with
      | some var => do
          let expr ← parse rest1
          .ok (Expr.new (.set var expr))
      | none =>
          .error ⟨"Set expression does not have a symbol as its first argument."⟩
  | _ => .error ⟨"Set expression has incorrect number of arguments."⟩
termination_by l => sizeOf l

/-- `parse_cons` (src/src/parser.rs lines 426-437): exactly two
sub-expressions. -/
def parse_cons : List Sexp → Except ParseError Expr
  | [rest0, rest1] => do
      let arg1 ← parse rest0
      let arg2 ← parse rest1
      .ok (Expr.new (.cons arg1 arg2))
  | _ => .error ⟨"Cons expression has incorrect number of arguments."⟩
termination_by l => sizeOf l

/-- `parse_car` (src/src/parser.rs lines 439-447). -/
def parse_car : List Sexp → Except ParseError Expr
  | [rest0] => do
      let exp ← parse rest0
      .ok (Expr.new (.car exp))
  | _ => .error ⟨"Car expression has incorrect number of arguments."⟩
termination_by l => sizeOf l

/-- `parse_cdr` (src/src/parser.rs lines 449-457). -/
def parse_cdr : List Sexp → Except ParseError Expr
  | [rest0] => do
      let exp ← parse rest0
      .ok (Expr.new (.cdr exp))
  | _ => .error ⟨"Cdr expression has incorrect number of arguments."⟩
termination_by l => sizeOf l

/-- `parse_is_null` (src/src/parser.rs lines 459-467). -/
def parse_is_null : List Sexp → Except ParseError Expr
  | [rest0] => do
      let exp ← parse rest0
      .ok (Expr.new (.isNull exp))
  | _ => .error ⟨"Null? expression has incorrect number of arguments."⟩
termination_by l => sizeOf l

/-- `parse_func` (src/src/parser.rs lines 482-492): function application —
the head is the function expression, the tail the arguments. -/
def parse_func (first : Sexp) (rest : List Sexp) : Except ParseError Expr := do
  let func ← parse first
  let args ← parse_array rest
  .ok (Expr.new (.fnApp func args))
termination_by 1 + sizeOf first + sizeOf rest

/-- `parse_make_tuple` (src/src/parser.rs lines 494-539): a proper list of
values, a `:` separator, and a proper list of type annotations. -/
def parse_make_tuple : List Sexp → Except ParseError Expr
  | [rest0, rest1, rest2] =>
      match rest0 with
      | .list val_list => do
          let vals ← parse_array val_list
          match Sexp.as_symbol rest1 with
          | some separator =>
              if separator ≠ ":" then
                .error
                  ⟨"Make-tuple expression does not have the correct separator : between the arguments list and return type."⟩
              else
                match rest2 with
                | .list typs_vec_unparsed => do
                    let typs_vec ← parse_type_list typs_vec_unparsed
                    .ok (Expr.new (.tuple vals typs_vec))
                | _ =>
                    .error
                      ⟨"Make-tuple expression does not have a proper list of types."⟩
          | none =>
              .error
                ⟨"Make-tuple expression does not have a separator between the arguments list and return type."⟩
      | _ => .error ⟨"First argument in make-tuple expression is not a list."⟩
  | _ => .error ⟨"Make-tuple expression has incorrect number of arguments."⟩
termination_by l => sizeOf l

/-- `parse_get_tuple` (src/src/parser.rs lines 541-556): a tuple expression
and an index expression. -/
def parse_get_tuple : List Sexp → Except ParseError Expr
  | [rest0, rest1] => do
      let env ← parse rest0
      let key ← parse rest1
      .ok (Expr.new (.tupleGet env key))
  | _ => .error ⟨"get-n expression has incorrect number of arguments."⟩
termination_by l => sizeOf l

/-- `parse_pack` (src/src/parser.rs lines 558-572): an expression, the
substitution type, and the existential type.  (The arity error message is
the `get-n` one, copied verbatim in the source.) -/
def parse_pack : List Sexp → Except ParseError Expr
  | [rest0, rest1, rest2] => do
      let exp ← parse rest0
      let type_var ← parse_type rest1
      let exist ← parse_type rest2
      .ok (Expr.new (.pack exp type_var exist))
  | _ => .error ⟨"get-n expression has incorrect number of arguments."⟩
termination_by l => sizeOf l

end

mutual

/-- Every checked-type slot in the expression tree (the node's own and
every nested sub-expression's) is `Unknown`. -/
def allUnknown : Expr → Bool
  | .mk t k => Ty.beq t .unknown && allUnknownKind k

/-- `allUnknown` on the children of one expression form. -/
def allUnknownKind : ExprKind → Bool
  | .binop _ e1 e2 => allUnknown e1 && allUnknown e2
  | .if_ p c a => allUnknown p && allUnknown c && allUnknown a
  | .let_ bs body => allUnknownBindings bs && allUnknown body
  | .lambda _ _ body => allUnknown body
  | .begin es => allUnknownList es
  | .set _ e => allUnknown e
  | .cons a b => allUnknown a && allUnknown b
  | .car e => allUnknown e
  | .cdr e => allUnknown e
  | .isNull e => allUnknown e
  | .null _ => true
  | .fnApp f args => allUnknown f && allUnknownList args
  | .tuple es _ => allUnknownList es
  | .tupleGet t k => allUnknown t && allUnknown k
  | .envE bs => allUnknownBindings bs
  | .envGet e _ => allUnknown e
  | .pack e _ _ => allUnknown e
  | .id _ => true
  | .num _ => true
  | .bool _ => true
  | .str _ => true

/-- `allUnknown` over an expression sequence. -/
def allUnknownList : List Expr → Bool
  | [] => true
  | e :: es => allUnknown e && allUnknownList es

/-- `allUnknown` over a binding sequence. -/
def allUnknownBindings : List (String × Expr) → Bool
  | [] => true
  | b :: bs => allUnknown b.2 && allUnknownBindings bs

end

mutual

/-- Every `Begin` node in the expression tree carries a non-empty vector of
sub-expressions. -/
def beginsNonEmpty : Expr → Bool
  | .mk _ k => beginsNonEmptyKind k

/-- `beginsNonEmpty` on the children of one expression form. -/
def beginsNonEmptyKind : ExprKind → Bool
  | .binop _ e1 e2 => beginsNonEmpty e1 && beginsNonEmpty e2
  | .if_ p c a => beginsNonEmpty p && beginsNonEmpty c && beginsNonEmpty a
  | .let_ bs body => beginsNonEmptyBindings bs && beginsNonEmpty body
  | .lambda _ _ body => beginsNonEmpty body
  | .begin es => !es.isEmpty && beginsNonEmptyList es
  | .set _ e => beginsNonEmpty e
  | .cons a b => beginsNonEmpty a && beginsNonEmpty b
  | .car e => beginsNonEmpty e
  | .cdr e => beginsNonEmpty e
  | .isNull e => beginsNonEmpty e
  | .null _ => true
  | .fnApp f args => beginsNonEmpty f && beginsNonEmptyList args
  | .tuple es _ => beginsNonEmptyList es
  | .tupleGet t k => beginsNonEmpty t && beginsNonEmpty k
  | .envE bs => beginsNonEmptyBindings bs
  | .envGet e _ => beginsNonEmpty e
  | .pack e _ _ => beginsNonEmpty e
  | .id _ => true
  | .num _ => true
  | .bool _ => true
  | .str _ => true

/-- `beginsNonEmpty` over an expression sequence. -/
def beginsNonEmptyList : List Expr → Bool
  | [] => true
  | e :: es => beginsNonEmpty e && beginsNonEmptyList es

/-- `beginsNonEmpty` over a binding sequence. -/
def beginsNonEmptyBindings : List (String × Expr) → Bool
  | [] => true
  | b :: bs => beginsNonEmpty b.2 && beginsNonEmptyBindings bs

end

/-- Inverting a successful `Except` bind: the first action succeeded and
its result fed the continuation. -/
theorem except_bind_ok_iff {ε α β : Type} (x : Except ε α)
    (f : α → Except ε β) (b : β) :
    (x >>= f) = .ok b ↔ ∃ a, x = .ok a ∧ f a = .ok b := by
  cases x <;> simp [Bind.bind, Except.bind]

set_option maxHeartbeats 2000000 in
/-- Master parser invariant: every successfully parsed expression has all
checked-type slots `Unknown` (src/src/common.rs `Expr::new`) and every
`Begin` node non-empty (src/src/parser.rs `parse_begin`). -/
theorem parse_ok_invariant (s : Sexp) :
    ∀ e, parse s = .ok e → allUnknown e = true ∧ beginsNonEmpty e = true := by
  induction s using parse.induct
  case motive2 first rest =>
    exact ∀ e, parse_func first rest = .ok e → allUnknown e = true ∧ beginsNonEmpty e = true
  case motive3 l =>
    exact ∀ es, parse_array l = .ok es → allUnknownList es = true ∧ beginsNonEmptyList es = true
  case motive4 l =>
    exact ∀ e, parse_pack l = .ok e → allUnknown e = true ∧ beginsNonEmpty e = true
  case motive5 l =>
    exact ∀ e, parse_get_tuple l = .ok e → allUnknown e = true ∧ beginsNonEmpty e = true
  case motive6 l =>
    exact ∀ e, parse_make_tuple l = .ok e → allUnknown e = true ∧ beginsNonEmpty e = true
  case motive7 l =>
    exact ∀ e, parse_is_null l = .ok e → allUnknown e = true ∧ beginsNonEmpty e = true
  case motive8 l =>
    exact ∀ e, parse_cdr l = .ok e → allUnknown e = true ∧ beginsNonEmpty e = true
  case motive9 l =>
    exact ∀ e, parse_car l = .ok e → allUnknown e = true ∧ beginsNonEmpty e = true
  case motive10 l =>
    exact ∀ e, parse_cons l = .ok e → allUnknown e = true ∧ beginsNonEmpty e = true
  case motive11 l =>
    exact ∀ e, parse_set_bang l = .ok e → allUnknown e = true ∧ beginsNonEmpty e = true
  case motive12 l =>
    exact ∀ e, parse_begin l = .ok e → allUnknown e = true ∧ beginsNonEmpty e = true
  case motive13 l =>
    exact ∀ e, parse_get_env l = .ok e → allUnknown e = true ∧ beginsNonEmpty e = true
  case motive14 l =>
    exact ∀ e, parse_make_env l = .ok e → allUnknown e = true ∧ beginsNonEmpty e = true
  case motive15 l =>
    exact ∀ bs, parse_env_bindings l = .ok bs → allUnknownBindings bs = true ∧ beginsNonEmptyBindings bs = true
  case motive16 l =>
    exact ∀ e, parse_lambda l = .ok e → allUnknown e = true ∧ beginsNonEmpty e = true
  case motive17 l =>
    exact ∀ e, parse_let l = .ok e → allUnknown e = true ∧ beginsNonEmpty e = true
  case motive18 l =>
    exact ∀ bs, parse_let_bindings l = .ok bs → allUnknownBindings bs = true ∧ beginsNonEmptyBindings bs = true
  case motive19 l =>
    exact ∀ e, parse_if l = .ok e → allUnknown e = true ∧ beginsNonEmpty e = true
  case motive20 op l =>
    exact ∀ e, parse_binop op l = .ok e → allUnknown e = true ∧ beginsNonEmpty e = true
  case case1 x val hx =>
    intro e a
    simp only [parse, hx] at a
    simp only [Except.ok.injEq] at a
    subst a
    simp [Expr.new, allUnknown, allUnknownKind, beginsNonEmpty, beginsNonEmptyKind, Ty.beq]
  case case2 x hx =>
    intro e a
    simp_all [parse]
  case case3 x =>
    intro e a
    simp only [parse, Except.ok.injEq] at a
    subst a
    simp [Expr.new, allUnknown, allUnknownKind, beginsNonEmpty, beginsNonEmptyKind, Ty.beq]
  case case4 x =>
    intro e a
    simp only [parse, Except.ok.injEq] at a
    subst a
    simp [Expr.new, allUnknown, allUnknownKind, beginsNonEmpty, beginsNonEmptyKind, Ty.beq]
  case case5 =>
    intro e a
    simp_all [parse]
  case case6 first rest hsym ih =>
    intro e a
    rw [parse.eq_def] at a
    simp only [hsym] at a
    exact ih e a
  case case7 first rest hsym ih =>
    intro e a
    rw [parse.eq_def] at a
    simp only [hsym] at a
    exact ih e a
  case case8 first rest hsym ih =>
    intro e a
    rw [parse.eq_def] at a
    simp only [hsym] at a
    exact ih e a
  case case9 first rest hsym ih =>
    intro e a
    rw [parse.eq_def] at a
    simp only [hsym] at a
    exact ih e a
  case case10 first rest hsym ih =>
    intro e a
    rw [parse.eq_def] at a
    simp only [hsym] at a
    exact ih e a
  case case11 first rest hsym ih =>
    intro e a
    rw [parse.eq_def] at a
    simp only [hsym] at a
    exact ih e a
  case case12 first rest hsym ih =>
    intro e a
    rw [parse.eq_def] at a
    simp only [hsym] at a
    exact ih e a
  case case13 first rest hsym ih =>
    intro e a
    rw [parse.eq_def] at a
    simp only [hsym] at a
    exact ih e a
  case case14 first rest hsym ih =>
    intro e a
    rw [parse.eq_def] at a
    simp only [hsym] at a
    exact ih e a
  case case15 first rest hsym ih =>
    intro e a
    rw [parse.eq_def] at a
    simp only [hsym] at a
    exact ih e a
  case case16 first rest hsym ih =>
    intro e a
    rw [parse.eq_def] at a
    simp only [hsym] at a
    exact ih e a
  case case17 first rest hsym ih =>
    intro e a
    rw [parse.eq_def] at a
    simp only [hsym] at a
    exact ih e a
  case case18 first rest hsym ih =>
    intro e a
    rw [parse.eq_def] at a
    simp only [hsym] at a
    exact ih e a
  case case19 first rest hsym ih =>
    intro e a
    rw [parse.eq_def] at a
    simp only [hsym] at a
    exact ih e a
  case case20 first rest hsym ih =>
    intro e a
    rw [parse.eq_def] at a
    simp only [hsym] at a
    exact ih e a
  case case21 first rest hsym ih =>
    intro e a
    rw [parse.eq_def] at a
    simp only [hsym] at a
    exact ih e a
  case case22 first rest hsym ih =>
    intro e a
    rw [parse.eq_def] at a
    simp only [hsym] at a
    exact ih e a
  case case23 first rest hsym ih =>
    intro e a
    rw [parse.eq_def] at a
    simp only [hsym] at a
    exact ih e a
  case case24 first rest hsym ih =>
    intro e a
    rw [parse.eq_def] at a
    simp only [hsym] at a
    exact ih e a
  case case25 first rest hsym ih =>
    intro e a
    rw [parse.eq_def] at a
    simp only [hsym] at a
    exact ih e a
  case case26 first rest hsym ih =>
    intro e a
    rw [parse.eq_def] at a
    simp only [hsym] at a
    exact ih e a
  case case27 first rest hsym ih =>
    intro e a
    rw [parse.eq_def] at a
    simp only [hsym] at a
    exact ih e a
  case case28 first rest hsym ih =>
    intro e a
    rw [parse.eq_def] at a
    simp only [hsym] at a
    exact ih e a
  case case30 first rest hsym ih =>
    intro e a
    rw [parse.eq_def] at a
    simp only [hsym] at a
    exact ih e a
  case case31 first rest hsym ih =>
    intro e a
    rw [parse.eq_def] at a
    simp only [hsym] at a
    exact ih e a
  case case32 first rest hsym ih =>
    intro e a
    rw [parse.eq_def] at a
    simp only [hsym] at a
    exact ih e a
  case case29 first rest hsym =>
    intro e a
    rw [parse.eq_def] at a
    simp only [hsym] at a
    rw [parse_null.eq_def] at a
    split at a
    · split at a
      · simp only [Except.ok.injEq] at a
        subst a
        simp [Expr.new, allUnknown, allUnknownKind, beginsNonEmpty, beginsNonEmptyKind, Ty.beq]
      · simp_all
    · simp_all
  case case33 =>
    intros
    rename_i val hsym n1 n2 n3 n4 n5 n6 n7 n8 n9 n10 n11 n12 n13 n14 n15 n16 n17 n18 n19 n20 n21 n22 n23 n24 n25 n26 n27 ih e a
    rw [parse.eq_def] at a
    simp only [hsym] at a
    exact ih e a
  case case34 first rest hsym ih =>
    intro e a
    rw [parse.eq_def] at a
    simp only [hsym] at a
    exact ih e a
  case case35 l s1 =>
    intro e a
    simp_all [parse]
  case case36 =>
    intro e a
    simp [parse] at a
    subst a
    simp [Expr.new, allUnknown, allUnknownKind, beginsNonEmpty, beginsNonEmptyKind, Ty.beq]
  case case37 hne =>
    intro e a
    simp [parse] at a
    subst a
    simp [Expr.new, allUnknown, allUnknownKind, beginsNonEmpty, beginsNonEmptyKind, Ty.beq]
  case case38 x hne1 hne2 =>
    intro e a
    simp [parse, hne1, hne2] at a
    subst a
    simp [Expr.new, allUnknown, allUnknownKind, beginsNonEmpty, beginsNonEmptyKind, Ty.beq]
  case case39 =>
    intro e a
    simp_all [parse]
  case case40 first rest ih2 ih1 =>
    intro e a
    rw [parse_func] at a
    rw [except_bind_ok_iff] at a
    obtain ⟨func, hf, a⟩ := a
    rw [except_bind_ok_iff] at a
    obtain ⟨args, hargs, a⟩ := a
    simp only [Except.ok.injEq] at a
    subst a
    obtain ⟨hu1, hb1⟩ := ih2 _ hf
    obtain ⟨hu2, hb2⟩ := ih1 _ hargs
    simp [Expr.new, allUnknown, allUnknownKind, beginsNonEmpty, beginsNonEmptyKind, Ty.beq, allUnknownList, beginsNonEmptyList, hu1, hb1, hu2, hb2]
  case case41 =>
    intro es a
    simp_all [parse_array, allUnknownList, beginsNonEmptyList]
  case case42 head rest ih2 ih1 =>
    intro es a
    simp only [parse_array, except_bind_ok_iff, Except.ok.injEq] at a
    obtain ⟨x, hx, xs, hxs, heq⟩ := a
    subst heq
    obtain ⟨hu1, hb1⟩ := ih2 _ hx
    obtain ⟨hu2, hb2⟩ := ih1 _ hxs
    simp [allUnknownList, beginsNonEmptyList, hu1, hb1, hu2, hb2]
  case case43 head var_sexp body ih =>
    intro e a
    simp only [parse_pack, except_bind_ok_iff, Except.ok.injEq] at a
    obtain ⟨exp, hexp, tv, htv, ex, hex, heq⟩ := a
    subst heq
    obtain ⟨hu, hb⟩ := ih _ hexp
    simp [Expr.new, allUnknown, allUnknownKind, beginsNonEmpty, beginsNonEmptyKind, Ty.beq, hu, hb]
  case case44 =>
    intros
    rename_i l hcant e a
    rcases l with _ | ⟨y1, _ | ⟨y2, _ | ⟨y3, _ | ⟨y4, _⟩⟩⟩⟩
    all_goals first
      | exact (hcant _ _ _ rfl).elim
      | simp_all [parse_pack, except_bind_ok_iff]
  case case45 head snd ih2 ih1 =>
    intro e a
    simp only [parse_get_tuple, except_bind_ok_iff, Except.ok.injEq] at a
    obtain ⟨env, he, key, hk, heq⟩ := a
    subst heq
    obtain ⟨hu1, hb1⟩ := ih2 _ he
    obtain ⟨hu2, hb2⟩ := ih1 _ hk
    simp [Expr.new, allUnknown, allUnknownKind, beginsNonEmpty, beginsNonEmptyKind, Ty.beq, hu1, hb1, hu2, hb2]
  case case46 =>
    intros
    rename_i l hcant e a
    rcases l with _ | ⟨y1, _ | ⟨y2, _ | ⟨y3, _⟩⟩⟩
    all_goals first
      | exact (hcant _ _ rfl).elim
      | simp_all [parse_get_tuple, except_bind_ok_iff]
  case case47 var_sexp body arg_vec ih =>
    intro e a
    simp only [parse_make_tuple, except_bind_ok_iff] at a
    obtain ⟨vals, hv, a⟩ := a
    split at a
    · split at a
      · simp at a
      · split at a
        · rw [except_bind_ok_iff] at a
          obtain ⟨typs, ht, a⟩ := a
          simp only [Except.ok.injEq] at a
          subst a
          obtain ⟨hu, hb⟩ := ih _ hv
          simp [Expr.new, allUnknown, allUnknownKind, beginsNonEmpty, beginsNonEmptyKind, Ty.beq, allUnknownList, beginsNonEmptyList, hu, hb]
        · simp at a
    · simp at a
  case case48 =>
    intros
    rename_i var_sexp body s1 hcant e a
    cases s1
    all_goals first
      | exact (hcant _ rfl).elim
      | simp_all [parse_make_tuple, except_bind_ok_iff]
  case case49 =>
    intros
    rename_i l hcant e a
    rcases l with _ | ⟨y1, _ | ⟨y2, _ | ⟨y3, _ | ⟨y4, _⟩⟩⟩⟩
    all_goals first
      | exact (hcant _ _ _ rfl).elim
      | simp_all [parse_make_tuple, except_bind_ok_iff]
  case case50 rest0 ih =>
    intro e a
    simp only [parse_is_null, except_bind_ok_iff, Except.ok.injEq] at a
    obtain ⟨x, hx, heq⟩ := a
    subst heq
    obtain ⟨hu, hb⟩ := ih _ hx
    simp [Expr.new, allUnknown, allUnknownKind, beginsNonEmpty, beginsNonEmptyKind, Ty.beq, hu, hb]
  case case52 rest0 ih =>
    intro e a
    simp only [parse_cdr, except_bind_ok_iff, Except.ok.injEq] at a
    obtain ⟨x, hx, heq⟩ := a
    subst heq
    obtain ⟨hu, hb⟩ := ih _ hx
    simp [Expr.new, allUnknown, allUnknownKind, beginsNonEmpty, beginsNonEmptyKind, Ty.beq, hu, hb]
  case case54 rest0 ih =>
    intro e a
    simp only [parse_car, except_bind_ok_iff, Except.ok.injEq] at a
    obtain ⟨x, hx, heq⟩ := a
    subst heq
    obtain ⟨hu, hb⟩ := ih _ hx
    simp [Expr.new, allUnknown, allUnknownKind, beginsNonEmpty, beginsNonEmptyKind, Ty.beq, hu, hb]
  case case51 =>
    intros
    rename_i l hcant e a
    rcases l with _ | ⟨y1, _ | ⟨y2, _⟩⟩
    all_goals first
      | exact (hcant _ rfl).elim
      | simp_all [parse_is_null, except_bind_ok_iff]
  case case53 =>
    intros
    rename_i l hcant e a
    rcases l with _ | ⟨y1, _ | ⟨y2, _⟩⟩
    all_goals first
      | exact (hcant _ rfl).elim
      | simp_all [parse_cdr, except_bind_ok_iff]
  case case55 =>
    intros
    rename_i l hcant e a
    rcases l with _ | ⟨y1, _ | ⟨y2, _⟩⟩
    all_goals first
      | exact (hcant _ rfl).elim
      | simp_all [parse_car, except_bind_ok_iff]
  case case56 head snd ih2 ih1 =>
    intro e a
    simp only [parse_cons, except_bind_ok_iff, Except.ok.injEq] at a
    obtain ⟨a1, h1, a2, h2, heq⟩ := a
    subst heq
    obtain ⟨hu1, hb1⟩ := ih2 _ h1
    obtain ⟨hu2, hb2⟩ := ih1 _ h2
    simp [Expr.new, allUnknown, allUnknownKind, beginsNonEmpty, beginsNonEmptyKind, Ty.beq, hu1, hb1, hu2, hb2]
  case case57 =>
    intros
    rename_i l hcant e a
    rcases l with _ | ⟨y1, _ | ⟨y2, _ | ⟨y3, _⟩⟩⟩
    all_goals first
      | exact (hcant _ _ rfl).elim
      | simp_all [parse_cons, except_bind_ok_iff]
  case case58 head snd val hsym ih =>
    intro e a
    simp only [parse_set_bang, hsym, except_bind_ok_iff, Except.ok.injEq] at a
    obtain ⟨x, hx, heq⟩ := a
    subst heq
    obtain ⟨hu, hb⟩ := ih _ hx
    simp [Expr.new, allUnknown, allUnknownKind, beginsNonEmpty, beginsNonEmptyKind, Ty.beq, hu, hb]
  case case59 head snd hsym =>
    intro e a
    simp_all [parse_set_bang, except_bind_ok_iff]
  case case60 =>
    intros
    rename_i l hcant e a
    rcases l with _ | ⟨y1, _ | ⟨y2, _ | ⟨y3, _⟩⟩⟩
    all_goals first
      | exact (hcant _ _ rfl).elim
      | simp_all [parse_set_bang, except_bind_ok_iff]
  case case61 =>
    intro e a
    simp_all [parse_begin]
  case case62 head rest ih =>
    intro e a
    simp only [parse_begin, except_bind_ok_iff, Except.ok.injEq] at a
    obtain ⟨es, hes, heq⟩ := a
    subst heq
    obtain ⟨hu, hb⟩ := ih _ hes
    simp only [parse_array, except_bind_ok_iff, Except.ok.injEq] at hes
    obtain ⟨x, hx, xs, hxs, heq2⟩ := hes
    subst heq2
    simp [Expr.new, allUnknown, allUnknownKind, beginsNonEmpty, beginsNonEmptyKind, Ty.beq, hu, hb]
  case case63 head snd ih =>
    intro e a
    simp only [parse_get_env, except_bind_ok_iff] at a
    obtain ⟨env, he, a⟩ := a
    split at a
    · simp only [Except.ok.injEq] at a
      subst a
      obtain ⟨hu, hb⟩ := ih _ he
      simp [Expr.new, allUnknown, allUnknownKind, beginsNonEmpty, beginsNonEmptyKind, Ty.beq, hu, hb]
    · simp at a
  case case64 =>
    intros
    rename_i l hcant e a
    rcases l with _ | ⟨y1, _ | ⟨y2, _ | ⟨y3, _⟩⟩⟩
    all_goals first
      | exact (hcant _ _ rfl).elim
      | simp_all [parse_get_env, except_bind_ok_iff]
  case case65 rest ih =>
    intro e a
    simp only [parse_make_env, except_bind_ok_iff, Except.ok.injEq] at a
    obtain ⟨bs, hbs, heq⟩ := a
    subst heq
    obtain ⟨hu, hb⟩ := ih _ hbs
    simp [Expr.new, allUnknown, allUnknownKind, beginsNonEmpty, beginsNonEmptyKind, Ty.beq, hu, hb]
  case case66 =>
    intro bs a
    simp_all [parse_env_bindings, allUnknownBindings, beginsNonEmptyBindings]
  case case76 =>
    intro bs a
    simp_all [parse_let_bindings, allUnknownBindings, beginsNonEmptyBindings]
  case case67 rest head snd val hsym ih2 ih1 =>
    intro bs a
    simp only [parse_env_bindings, hsym, except_bind_ok_iff, Except.ok.injEq] at a
    obtain ⟨v, hv, p, hp, bs2, hbs2, heq⟩ := a
    subst hp
    subst heq
    obtain ⟨hu1, hb1⟩ := ih1 _ hv
    obtain ⟨hu2, hb2⟩ := ih2 _ hbs2
    simp [allUnknownBindings, beginsNonEmptyBindings, allUnknown, beginsNonEmpty, Expr.new, allUnknownKind, beginsNonEmptyKind, Ty.beq, hu1, hb1, hu2, hb2]
  case case77 rest head snd val hsym ih2 ih1 =>
    intro bs a
    simp only [parse_let_bindings, hsym, except_bind_ok_iff, Except.ok.injEq] at a
    obtain ⟨v, hv, p, hp, bs2, hbs2, heq⟩ := a
    subst hp
    subst heq
    obtain ⟨hu1, hb1⟩ := ih1 _ hv
    obtain ⟨hu2, hb2⟩ := ih2 _ hbs2
    simp [allUnknownBindings, beginsNonEmptyBindings, allUnknown, beginsNonEmpty, Expr.new, allUnknownKind, beginsNonEmptyKind, Ty.beq, hu1, hb1, hu2, hb2]
  case case68 rest head snd hsym ih =>
    intro bs a
    simp_all [parse_env_bindings, except_bind_ok_iff]
  case case78 rest head snd hsym ih =>
    intro bs a
    simp_all [parse_let_bindings, except_bind_ok_iff]
  case case69 =>
    intros
    rename_i rest l hcant ih bs a
    rcases l with _ | ⟨y2, _ | ⟨y1, _⟩⟩
    all_goals first
      | exact (hcant _ _ rfl).elim
      | simp_all [parse_env_bindings, except_bind_ok_iff]
  case case79 =>
    intros
    rename_i rest l hcant ih bs a
    rcases l with _ | ⟨y2, _ | ⟨y1, _⟩⟩
    all_goals first
      | exact (hcant _ _ rfl).elim
      | simp_all [parse_let_bindings, except_bind_ok_iff]
  case case70 =>
    intros
    rename_i rest s1 hcant ih bs a
    cases s1
    all_goals first
      | exact (hcant _ rfl).elim
      | simp_all [parse_env_bindings, except_bind_ok_iff]
  case case80 =>
    intros
    rename_i rest s1 hcant ih bs a
    cases s1
    all_goals first
      | exact (hcant _ rfl).elim
      | simp_all [parse_let_bindings, except_bind_ok_iff]
  case case71 rest0 rest1 rest2 rest3 ih =>
    intro e a
    simp only [parse_lambda, except_bind_ok_iff] at a
    obtain ⟨args, hargs, a⟩ := a
    split at a
    · split at a
      · simp at a
      · rw [except_bind_ok_iff] at a
        obtain ⟨ret, hret, a⟩ := a
        rw [except_bind_ok_iff] at a
        obtain ⟨body, hbody, a⟩ := a
        simp only [Except.ok.injEq] at a
        subst a
        obtain ⟨hu, hb⟩ := ih _ hbody
        simp [Expr.new, allUnknown, allUnknownKind, beginsNonEmpty, beginsNonEmptyKind, Ty.beq, hu, hb]
    · simp at a
  case case72 =>
    intros
    rename_i l hcant e a
    rcases l with _ | ⟨y1, _ | ⟨y2, _ | ⟨y3, _ | ⟨y4, _ | ⟨y5, _⟩⟩⟩⟩⟩
    all_goals first
      | exact (hcant _ _ _ _ rfl).elim
      | simp_all [parse_lambda, except_bind_ok_iff]
  case case73 snd arg_vec ih2 ih1 =>
    intro e a
    simp only [parse_let, except_bind_ok_iff, Except.ok.injEq] at a
    obtain ⟨bs, hbs, body, hbody, heq⟩ := a
    subst heq
    obtain ⟨hu1, hb1⟩ := ih2 _ hbs
    obtain ⟨hu2, hb2⟩ := ih1 _ hbody
    simp [Expr.new, allUnknown, allUnknownKind, beginsNonEmpty, beginsNonEmptyKind, Ty.beq, hu1, hb1, hu2, hb2]
  case case74 =>
    intros
    rename_i snd s1 hcant e a
    cases s1
    all_goals first
      | exact (hcant _ rfl).elim
      | simp_all [parse_let, except_bind_ok_iff]
  case case75 =>
    intros
    rename_i l hcant e a
    rcases l with _ | ⟨y1, _ | ⟨y2, _ | ⟨y3, _⟩⟩⟩
    all_goals first
      | exact (hcant _ _ rfl).elim
      | simp_all [parse_let, except_bind_ok_iff]
  case case81 rest0 rest1 rest2 ih3 ih2 ih1 =>
    intro e a
    simp only [parse_if, except_bind_ok_iff, Except.ok.injEq] at a
    obtain ⟨p, hp, c, hc, alt, halt, heq⟩ := a
    subst heq
    obtain ⟨hu1, hb1⟩ := ih3 _ hp
    obtain ⟨hu2, hb2⟩ := ih2 _ hc
    obtain ⟨hu3, hb3⟩ := ih1 _ halt
    simp [Expr.new, allUnknown, allUnknownKind, beginsNonEmpty, beginsNonEmptyKind, Ty.beq, hu1, hb1, hu2, hb2, hu3, hb3]
  case case82 =>
    intros
    rename_i l hcant e a
    rcases l with _ | ⟨y1, _ | ⟨y2, _ | ⟨y3, _ | ⟨y4, _⟩⟩⟩⟩
    all_goals first
      | exact (hcant _ _ _ rfl).elim
      | simp_all [parse_if, except_bind_ok_iff]
  case case83 op head snd ih2 ih1 =>
    intro e a
    rw [parse_binop.eq_def] at a
    simp only [except_bind_ok_iff, Except.ok.injEq] at a
    obtain ⟨e1, h1, e2, h2, bop, hbop, heq⟩ := a
    subst heq
    obtain ⟨hu1, hb1⟩ := ih2 _ h1
    obtain ⟨hu2, hb2⟩ := ih1 _ h2
    simp [Expr.new, allUnknown, allUnknownKind, beginsNonEmpty,
      beginsNonEmptyKind, Ty.beq, hu1, hb1, hu2, hb2]
  case case84 =>
    intros
    rename_i op l hcant e a
    rcases l with _ | ⟨y3, _ | ⟨y2, _ | ⟨y1, l⟩⟩⟩
    all_goals first
      | exact (hcant _ _ rfl).elim
      | simp_all [parse_binop, except_bind_ok_iff]

/-- C1: Environment lookup returns the innermost (most recently pushed)
binding: pushing `(x, T1)` then `(x, T2)` makes lookup of `x` yield
`some T2`; in general one `add_binding (x, t)` makes `x` resolve to `t` and
leaves every other key unchanged, and lookup is `none` exactly when no
binding for the key exists. -/
theorem env_find_innermost {α : Type} (env : TypeEnv α) (x : String)
    (T1 T2 : α) :
    TypeEnv.find (TypeEnv.add_binding (TypeEnv.add_binding env (x, T1)) (x, T2)) x
        = some T2
    ∧ (∀ k t, TypeEnv.find (TypeEnv.add_binding env (x, t)) k =
        if k = x then some t else TypeEnv.find env k)
    ∧ (∀ k, TypeEnv.find env k = none ↔ ∀ p ∈ env.bindings, p.1 ≠ k) := by
  refine ⟨?_, fun k t => TypeEnv.find_add_binding env x k t, fun k => ?_⟩
  · rw [TypeEnv.find_add_binding]
    simp
  · exact TypeEnv.findInList_eq_none_iff env.bindings k

/-- C2: Batch extension applies bindings in sequence, later entries
shadowing earlier ones: `add_bindings` is the left fold of `add_binding`,
and lookup in the extended environment returns the value of the last
binding in the batch with the looked-up name (the first in the reversed
batch), falling back to the original environment. -/
theorem env_add_bindings_batch {α : Type} (env : TypeEnv α)
    (bs : List (String × α)) (k : String) :
    TypeEnv.add_bindings env bs = bs.foldl TypeEnv.add_binding env
    ∧ TypeEnv.find (TypeEnv.add_bindings env bs) k =
        (match bs.reverse.find? (fun p => p.1 == k) with
         | some p => some p.2
         | none => TypeEnv.find env k) :=
  ⟨TypeEnv.add_bindings_eq_foldl env bs, TypeEnv.find_add_bindings env bs k⟩

/-- C3: Type equality is structural and reflexive: `T == T` always holds;
`TypeVar(a) == TypeVar(b)` iff `a == b`; `Exists(a, T) == Exists(b, U)` iff
`a == b` and `T == U` (no alpha-equivalence); and in general the derived
equality decides exactly propositional (structural) equality, so types of
different variants, or of the same variant with any differing argument,
are unequal. -/
theorem ty_eq_structural :
    (∀ t : Ty, Ty.beq t t = true)
    ∧ (∀ a b : Nat, Ty.beq (.typeVar a) (.typeVar b) = true ↔ a = b)
    ∧ (∀ (a b : Nat) (t u : Ty),
        Ty.beq (.exist a t) (.exist b u) = true ↔ a = b ∧ t = u)
    ∧ (∀ t u : Ty, Ty.beq t u = true ↔ t = u) := by
  refine ⟨fun t => (Ty.beq_iff t t).mpr rfl, fun a b => ?_, fun a b t u => ?_,
    Ty.beq_iff⟩
  · rw [Ty.beq_iff]
    simp
  · rw [Ty.beq_iff]
    simp

/-- C4: Every `Type` variant renders to its canonical surface-syntax form:
`List(Int)` to `"(list int)"`, the example existential to
`"(exists T0 (-> T0 bool))"`, and the base forms to `"int"`, `"bool"`,
`"string"`, `"T<n>"` and `"unknown"`. -/
theorem ty_fmt_canonical :
    Ty.fmt (.list .int) = "(list int)"
    ∧ Ty.fmt (.exist 0 (.func [.typeVar 0] .bool)) = "(exists T0 (-> T0 bool))"
    ∧ Ty.fmt .int = "int"
    ∧ Ty.fmt .bool = "bool"
    ∧ Ty.fmt .str = "string"
    ∧ (∀ n : Nat, Ty.fmt (.typeVar n) = "T" ++ decimal n)
    ∧ Ty.fmt .unknown = "unknown" := by
  have h0 : decimal 0 = "0" := by
    rw [decimal, decimalChars]
    norm_num
    rfl
  refine ⟨?_, ?_, ?_, ?_, ?_, fun n => ?_, ?_⟩ <;>
    simp [Ty.fmt, Ty.fmtList, format_vector, h0]
  decide

/-- C5: Display/parse round trip: for every `Type` value `T`, resolving the
S-expression read back from the Display rendering of `T` with `parse_type`
succeeds and returns exactly `T` — including `Func` with an empty parameter
list, the empty `Tuple`, nested `Exists`, `TypeVar` and `Unknown`. -/
theorem display_parse_round_trip (T : Ty) :
    parse_type (sexpOfTy T) = .ok T :=
  parse_type_sexpOfTy T

/-- C6: Pack erasure: checking `Pack(value, sub, Exists(v, base))` succeeds
exactly when the value's type equals `subst(base, v, sub)`, and on success
the result is the existential type unchanged — the substitution witness
never appears in the result. -/
theorem pack_erasure (v : Nat) (base sub value_type : Ty) :
    ((∃ r, checkPack value_type sub (.exist v base) = .ok r) ↔
      value_type = subst base v sub)
    ∧ (∀ r, checkPack value_type sub (.exist v base) = .ok r →
        r = .exist v base) := by
  constructor
  · constructor
    · rintro ⟨r, hr⟩
      rw [checkPack] at hr
      by_cases h : value_type = subst base v sub
      · exact h
      · simp [h] at hr
    · intro h
      exact ⟨.exist v base, by simp [checkPack, h]⟩
  · intro r hr
    rw [checkPack] at hr
    by_cases h : value_type = subst base v sub
    · simp [h] at hr
      exact hr.symm
    · simp [h] at hr

/-- Witness for C6 at a concrete input: packing an `Int` value at witness
type `Int` into `Exists(0, TypeVar(0))` yields the existential unchanged. -/
theorem pack_erasure_witness :
    checkPack .int .int (.exist 0 (.typeVar 0)) = .ok (.exist 0 (.typeVar 0))
    ∧ Ty.exist 0 (.typeVar 0) = .exist 0 (.typeVar 0) := by
  have h : checkPack .int .int (.exist 0 (.typeVar 0)) =
      .ok (.exist 0 (.typeVar 0)) := by
    simp [checkPack, subst]
  exact ⟨h, (pack_erasure 0 (.typeVar 0) .int .int).2 _ h⟩

/-- C7: Substitution does not descend under a shadowing binder:
`subst(Exists(v, Exists(v, TypeVar(v))), v, R)` leaves the term untouched;
a free `TypeVar(v)` is replaced by `R`; and descent into an `Exists` stops
exactly when it binds the same id. -/
theorem subst_shadowed_binder (v : Nat) (R : Ty) :
    subst (.exist v (.exist v (.typeVar v))) v R
        = .exist v (.exist v (.typeVar v))
    ∧ subst (.typeVar v) v R = R
    ∧ (∀ (w : Nat) (b : Ty), subst (.exist w b) v R =
        if w = v then .exist w b else .exist w (subst b v R)) := by
  refine ⟨?_, ?_, fun w b => ?_⟩ <;> simp [subst]

/-- C8: Every expression the parser produces has its checked-type slot
initialized to `Unknown`, in the root node and in every nested
sub-expression, because every node is built via `Expr::new`. -/
theorem parse_checked_type_unknown (v : Sexp) (e : Expr)
    (h : parse v = .ok e) :
    allUnknown e = true ∧ e.checked_type = .unknown := by
  have hu := (parse_ok_invariant v e h).1
  refine ⟨hu, ?_⟩
  cases e with
  | mk t k =>
      rw [allUnknown, Bool.and_eq_true] at hu
      exact (Ty.beq_iff t .unknown).mp hu.1

/-- Witness for C8 at a concrete input: parsing the number 5. -/
theorem parse_checked_type_unknown_witness :
    allUnknown (Expr.mk .unknown (.num 5)) = true
    ∧ (Expr.mk .unknown (.num 5)).checked_type = .unknown :=
  parse_checked_type_unknown (.number 5) (Expr.mk .unknown (.num 5))
    (by simp [parse, Sexp.as_i64, Expr.new])

/-- C9: The parser rejects an empty `begin` form with the error
"Begin expression has no arguments.", and consequently every `Begin` node
the parser produces carries a non-empty vector of sub-expressions. -/
theorem parse_begin_nonempty :
    parse (.list [.symbol "begin"])
        = .error ⟨"Begin expression has no arguments."⟩
    ∧ (∀ v e, parse v = .ok e → beginsNonEmpty e = true) := by
  constructor
  · simp [parse, Sexp.as_symbol, parse_begin]
  · exact fun v e h => (parse_ok_invariant v e h).2

/-- Witness for C9 at a concrete input: parsing the number 5. -/
theorem parse_begin_nonempty_witness :
    beginsNonEmpty (Expr.mk .unknown (.num 5)) = true :=
  parse_begin_nonempty.2 (.number 5) (Expr.mk .unknown (.num 5))
    (by simp [parse, Sexp.as_i64, Expr.new])

/-- C10: The `Unknown` placeholder is expressible in surface syntax: the
bare symbol `unknown` parses to `Type::Unknown`, and `(null unknown)`
parses to `Null(Unknown)`. -/
theorem unknown_expressible_in_surface_syntax :
    parse_type (.symbol "unknown") = .ok .unknown
    ∧ parse (.list [.symbol "null", .symbol "unknown"])
        = .ok (Expr.mk .unknown (.null .unknown)) := by
  constructor
  · simp [parse_type]
  · simp [parse, Sexp.as_symbol, parse_null, parse_type, Expr.new]

/-- Witness for C1 at a concrete input: shadowing "x" twice over a
one-binding environment. -/
theorem env_find_innermost_witness :
    TypeEnv.find
        (TypeEnv.add_binding
          (TypeEnv.add_binding (TypeEnv.mk [("y", (0 : Nat))]) ("x", 1))
          ("x", 2)) "x" = some 2 :=
  (env_find_innermost (TypeEnv.mk [("y", 0)]) "x" 1 2).1

/-- Witness for C3 at a concrete input: reflexivity on `(list int)` and the
`Exists` equality characterization at distinct ids. -/
theorem ty_eq_structural_witness :
    Ty.beq (.list .int) (.list .int) = true
    ∧ (Ty.beq (.exist 0 .int) (.exist 1 .int) = true ↔ 0 = 1 ∧ Ty.int = .int) :=
  ⟨ty_eq_structural.1 (.list .int), ty_eq_structural.2.2.1 0 1 .int .int⟩
